import Mathlib

/-!
Shallow embedding of the tftpff TFTP server core (src/packet.rs, src/file.rs,
src/server.rs, src/error.rs) and proofs about its specification claims.

Bytes are modelled as `Nat` (the Rust code works on `u8` values; all byte
values handled here are below 256 and no arithmetic overflows a byte).
Rust panics (out-of-bounds indexing, explicit `panic!`, `.unwrap()` on `None`)
are modelled as a distinguished outcome: `Option.none` for functions returning
`Option`, or the `ParseResult.panicked` constructor for packet decoders.
-/

namespace Tftpff

/-- `packet::Mode` (src/packet.rs): transfer modes; MAIL is absent. -/
inductive Mode
  | NETASCII
  | OCTET
deriving DecidableEq, Repr

/-- `Data::encode_netascii` (src/packet.rs lines 262-274): local bytes to
netascii; CR becomes CR NUL, LF becomes CR LF, all other bytes unchanged.
The same transformation appears inline in `File::read_data_from_inner`
(src/file.rs lines 52-64). 13 = CR, 10 = LF, 0 = NUL. -/
def encode_netascii : List Nat → List Nat
  | [] => []
  | x :: rest =>
      (if x = 13 then [13, 0]
       else if x = 10 then [13, 10]
       else [x]) ++ encode_netascii rest

/-- `Data::parse_netascii` (src/packet.rs lines 225-249): netascii to local
bytes.  The Rust loop indexes `data[i]` after `i += 1` when it sees a CR, so a
CR as the final byte is an out-of-bounds panic, and a CR followed by a byte
other than NUL or LF is an explicit `panic!`; both are modelled as `none`. -/
def parse_netascii : List Nat → Option (List Nat)
  | [] => some []
  | x :: rest =>
      if x = 13 then
        match rest with
        | [] => none
        | y :: rest2 =>
            if y = 0 then (parse_netascii rest2).map (fun r => 13 :: r)
            else if y = 10 then (parse_netascii rest2).map (fun r => 10 :: r)
            else none
      else (parse_netascii rest).map (fun r => x :: r)

/-- The netascii-decoding loop of `File::write` (src/file.rs lines 116-140),
run on `in_buf` (= carried `write_buf` ++ incoming chunk).  Returns
`(out_buf, new write_buf)`: a CR that is the last byte of the input is pushed
onto `write_buf` and carried to the next chunk; CR NUL yields CR; CR LF yields
LF; CR followed by anything else is an explicit `panic!` (modelled `none`). -/
def netasciiConsume : List Nat → Option (List Nat × List Nat)
  | [] => some ([], [])
  | x :: rest =>
      if x = 13 then
        match rest with
        | [] => some ([], [13])
        | y :: rest2 =>
            if y = 0 then (netasciiConsume rest2).map (fun r => (13 :: r.1, r.2))
            else if y = 10 then (netasciiConsume rest2).map (fun r => (10 :: r.1, r.2))
            else none
      else (netasciiConsume rest).map (fun r => (x :: r.1, r.2))

/-- Outcome of a Rust decoder: `panicked` models a Rust panic (out-of-bounds
slice index), `failed` models a returned `Err` (anyhow `bail!`), `ok` a
returned typed packet. -/
inductive ParseResult (α : Type)
  | panicked
  | failed
  | ok (a : α)
deriving DecidableEq, Repr

/-- `slice::split` on a byte predicate `(= b)`, as used by
`WritePacket::parse` / `ReadPacket::parse` (`s.split(|x| *x == 0)`): splits
into the (possibly empty) runs between occurrences of `b`. -/
def splitOnByte (b : Nat) : List Nat → List (List Nat)
  | [] => [[]]
  | x :: xs =>
      if x = b then [] :: splitOnByte b xs
      else
        match splitOnByte b xs with
        | [] => [[x]]
        | y :: ys => (x :: y) :: ys

/-- `u8::to_ascii_lowercase` applied byte-wise (`String::to_ascii_lowercase`
in `Mode::parse`). -/
def asciiLower (x : Nat) : Nat :=
  if 65 ≤ x ∧ x ≤ 90 then x + 32 else x

/-- `Mode::parse` (src/packet.rs lines 14-21): lowercases the byte string and
recognises exactly "netascii" and "octet"; anything else (including "mail")
is `None`.  ASCII codes: "netascii" and "octet". -/
def Mode.parse (s : List Nat) : Option Mode :=
  let l := s.map asciiLower
  if l = [110, 101, 116, 97, 115, 99, 105, 105] then some Mode.NETASCII
  else if l = [111, 99, 116, 101, 116] then some Mode.OCTET
  else none

/-- `std::path::Path::file_name` applied to the raw filename bytes
(`Path::new(&raw_filename).file_name()` in `WritePacket::parse` /
`ReadPacket::parse`): the final normal component of the path.  Components
are the runs between `/` (47) separators, with empty runs and "." (46)
components normalised away; the result is `None` when no component remains
or when the last component is "..". -/
def pathFileName (bs : List Nat) : Option (List Nat) :=
  match ((splitOnByte 47 bs).filter (fun p => p ≠ [] ∧ p ≠ [46])).getLast? with
  | none => none
  | some last => if last = [46, 46] then none else some last

/-- Reads a big-endian `u16` from the first two bytes
(`u16::from_be_bytes(s[..2].try_into()?)`); callers must have checked the
length, since `s[..2]` panics on shorter slices. -/
def beU16 (a b : Nat) : Nat := a * 256 + b

/-- `packet::WritePacket` (src/packet.rs): parsed WRQ. -/
structure WritePacket where
  filename : List Nat
  mode : Mode
deriving DecidableEq, Repr

/-- `packet::ReadPacket` (src/packet.rs): parsed RRQ. -/
structure ReadPacket where
  filename : List Nat
  mode : Mode
deriving DecidableEq, Repr

/-- `WritePacket::parse` (src/packet.rs lines 70-91).  `s[..2]` panics when
the slice is shorter than 2 bytes; otherwise: wrong opcode or a body that
does not split on NUL into exactly 3 parts or an unresolvable filename or an
unknown mode is a returned error (`bail!` / `ok_or`). -/
def WritePacket.parse (s : List Nat) : ParseResult WritePacket :=
  match s with
  | a :: b :: body =>
      if beU16 a b ≠ 2 then .failed
      else
        let bs := splitOnByte 0 body
        if bs.length ≠ 3 then .failed
        else
          match pathFileName (bs.headI) with
          | none => .failed
          | some filename =>
              match Mode.parse (bs.tail.headI) with
              | none => .failed
              | some mode => .ok ⟨filename, mode⟩
  | _ => .panicked

/-- `ReadPacket::parse` (src/packet.rs lines 114-135); identical to the WRQ
parser except for opcode 1. -/
def ReadPacket.parse (s : List Nat) : ParseResult ReadPacket :=
  match s with
  | a :: b :: body =>
      if beU16 a b ≠ 1 then .failed
      else
        let bs := splitOnByte 0 body
        if bs.length ≠ 3 then .failed
        else
          match pathFileName (bs.headI) with
          | none => .failed
          | some filename =>
              match Mode.parse (bs.tail.headI) with
              | none => .failed
              | some mode => .ok ⟨filename, mode⟩
  | _ => .panicked

/-- `packet::InitialPacket` (src/packet.rs). -/
inductive InitialPacket
  | WRQ (w : WritePacket)
  | RRQ (r : ReadPacket)
deriving DecidableEq, Repr

/-- `InitialPacket::parse` (src/packet.rs lines 47-54): reads the opcode from
`s[..2]` (a panic when fewer than 2 bytes are given) and dispatches to the
RRQ (1) or WRQ (2) parser; any other opcode is a returned error. -/
def InitialPacket.parse (s : List Nat) : ParseResult InitialPacket :=
  match s with
  | a :: b :: _ =>
      if beU16 a b = 1 then
        match ReadPacket.parse s with
        | .ok r => .ok (.RRQ r)
        | .failed => .failed
        | .panicked => .panicked
      else if beU16 a b = 2 then
        match WritePacket.parse s with
        | .ok w => .ok (.WRQ w)
        | .failed => .failed
        | .panicked => .panicked
      else .failed
  | _ => .panicked

/-- `packet::ACK` (src/packet.rs): block number (u16). -/
structure ACK where
  block : Nat
deriving DecidableEq, Repr

/-- `ACK::parse` (src/packet.rs lines 161-173): `s[..2]` panics below 2
bytes; a wrong opcode is a returned error; then `s[2..4]` panics below 4
bytes; otherwise the block number is read. -/
def ACK.parse (s : List Nat) : ParseResult ACK :=
  match s with
  | a :: b :: rest =>
      if beU16 a b ≠ 4 then .failed
      else
        match rest with
        | c :: d :: _ => .ok ⟨beU16 c d⟩
        | _ => .panicked
  | _ => .panicked

/-- `packet::Data` (src/packet.rs): block number and payload. -/
structure Data where
  block : Nat
  data : List Nat
deriving DecidableEq, Repr

/-- `Data::parse` (src/packet.rs lines 205-223): `s[..2]` panics below 2
bytes; a wrong opcode is a returned error; `s[2..4]` panics below 4 bytes;
in NETASCII mode the payload goes through `parse_netascii` (whose panics
propagate), in OCTET mode it is taken as-is. -/
def Data.parse (mode : Mode) (s : List Nat) : ParseResult Data :=
  match s with
  | a :: b :: rest =>
      if beU16 a b ≠ 3 then .failed
      else
        match rest with
        | c :: d :: payload =>
            match mode with
            | .OCTET => .ok ⟨beU16 c d, payload⟩
            | .NETASCII =>
                match parse_netascii payload with
                | none => .panicked
                | some decoded => .ok ⟨beU16 c d, decoded⟩
        | _ => .panicked
  | _ => .panicked

/-- `Data::parse` as invoked by src/server.rs (`packet::Data::parse(&buf[..data_n])`,
line 424): the call sites in server.rs pass no mode, i.e. the payload after
the 4-byte header is taken raw (the netascii transformation happens later in
`File::write`). -/
def serverDataParse (s : List Nat) : ParseResult Data :=
  match s with
  | a :: b :: rest =>
      if beU16 a b ≠ 3 then .failed
      else
        match rest with
        | c :: d :: payload => .ok ⟨beU16 c d, payload⟩
        | _ => .panicked
  | _ => .panicked

/-- `error::TftpError::error_code` (src/error.rs lines 36-47). -/
inductive TftpError
  | Others
  | FileNotFound
  | AccessViolation
  | DiskNoSpace
  | IllegalTftpOp
  | UnknownTid
  | FileExists
  | NoSuchUser
deriving DecidableEq, Repr

/-- `TftpError::error_code` (src/error.rs). -/
def TftpError.error_code : TftpError → Nat
  | .Others => 0
  | .FileNotFound => 1
  | .AccessViolation => 2
  | .DiskNoSpace => 3
  | .IllegalTftpOp => 4
  | .UnknownTid => 5
  | .FileExists => 6
  | .NoSuchUser => 7

/-- `TftpError::from_u16` (src/error.rs lines 22-34). -/
def TftpError.from_u16 (x : Nat) : Option TftpError :=
  if x = 0 then some .Others
  else if x = 1 then some .FileNotFound
  else if x = 2 then some .AccessViolation
  else if x = 3 then some .DiskNoSpace
  else if x = 4 then some .IllegalTftpOp
  else if x = 5 then some .UnknownTid
  else if x = 6 then some .FileExists
  else if x = 7 then some .NoSuchUser
  else none

/-- `packet::Error` (src/packet.rs): error code and message. -/
structure ErrorPacket where
  err : TftpError
  msg : List Nat
deriving DecidableEq, Repr

/-- `Error::parse` (src/packet.rs lines 308-331): `data[..2]` panics below 2
bytes; wrong opcode is a returned error; `data[2..4]` panics below 4 bytes;
an unknown error code or a missing trailing NUL is a returned error; the
message slice `data[4..(data.len()-1)]` panics when the slice is exactly
4 bytes long (range `4..3`). -/
def ErrorPacket.parse (s : List Nat) : ParseResult ErrorPacket :=
  match s with
  | a :: b :: rest =>
      if beU16 a b ≠ 5 then .failed
      else
        match rest with
        | c :: d :: msgPart =>
            match TftpError.from_u16 (beU16 c d) with
            | none => .failed
            | some e =>
                if (c :: d :: msgPart).getLast? ≠ some 0 then .failed
                else
                  match msgPart with
                  | [] => .panicked
                  | _ => .ok ⟨e, msgPart.dropLast⟩
        | _ => .panicked
  | _ => .panicked

/-! ## File adapter (src/file.rs)

`file::File` wraps `std::fs::File`.  The inner OS file is abstracted as the
list of bytes still to be read (`remaining`) on the read side and the list of
bytes written so far (`written`) on the write side; `inner.read` of a regular
file is modelled as returning `min 512 remaining.length` bytes, and
`inner.write` as accepting the whole buffer. -/

/-- `file::File` (src/file.rs lines 8-15) with the inner `fs::File`
abstracted: `remaining` is the unread content of the underlying file,
`written` the bytes written to it. -/
structure FileState where
  remaining : List Nat
  written : List Nat
  read_buf : List Nat
  write_buf : List Nat
  mode : Mode
  is_started : Bool
  is_finished : Bool
deriving DecidableEq, Repr

/-- `File::open` (src/file.rs lines 18-30) on a file holding `content`. -/
def FileState.open (content : List Nat) (mode : Mode) : FileState :=
  ⟨content, [], [], [], mode, false, false⟩

/-- `File::create` (src/file.rs lines 32-44): a fresh empty file. -/
def FileState.create (mode : Mode) : FileState :=
  ⟨[], [], [], [], mode, false, false⟩

/-- `File::read_data_from_inner` (src/file.rs lines 46-67): reads up to 512
bytes from the inner file and appends them to `read_buf`, applying the
netascii expansion (CR to CR NUL, LF to CR LF) when the mode is NETASCII. -/
def FileState.read_data_from_inner (st : FileState) : FileState :=
  let k := min 512 st.remaining.length
  let chunk := st.remaining.take k
  let expanded :=
    match st.mode with
    | .OCTET => chunk
    | .NETASCII => encode_netascii chunk
  { st with remaining := st.remaining.drop k, read_buf := st.read_buf ++ expanded }

/-- `<File as Read>::read` (src/file.rs lines 75-98) with a 512-byte caller
buffer (the only size used by the RRQ handler): returns the produced block
and the new state.  Once finished it returns an empty block; otherwise it
refills from the inner file, drains `min 512 read_buf.length` bytes, and
marks the stream finished when the drained block is short. -/
def FileState.read (st : FileState) : List Nat × FileState :=
  if st.is_finished then ([], st)
  else
    let st := { st with is_started := true }
    let st := st.read_data_from_inner
    let n := min 512 st.read_buf.length
    let block := st.read_buf.take n
    let st := { st with read_buf := st.read_buf.drop n }
    let st := if n < 512 then { st with is_finished := true } else st
    (block, st)

/-- `File::has_next` (src/file.rs lines 69-72). -/
def FileState.has_next (st : FileState) : Bool :=
  !st.is_started || !st.is_finished

/-- `<File as Write>::write` (src/file.rs lines 102-144): OCTET appends the
chunk to the inner file unchanged; NETASCII prepends the carried `write_buf`,
runs the netascii-decoding loop (`none` = the explicit `panic!` on a CR
followed by a byte other than NUL or LF), appends the decoded bytes to the
inner file and stores a trailing unresolved CR back in `write_buf`. -/
def FileState.write (st : FileState) (data : List Nat) : Option FileState :=
  let st := { st with is_started := true }
  match st.mode with
  | .OCTET => some { st with written := st.written ++ data }
  | .NETASCII =>
      match netasciiConsume (st.write_buf ++ data) with
      | none => none
      | some r =>
          some { st with written := st.written ++ r.1, write_buf := r.2 }

/-- `<File as Write>::write` including its RETURN VALUE: the call returns
`Ok(n)` where `n` is what the inner file accepted — `data.len()` in OCTET
mode, but in NETASCII mode the length of the DECODED output
(`self.inner.write(&out_buf)`, src/file.rs line 142), NOT the number of
input bytes consumed.  The state effect is the same as `FileState.write`. -/
def FileState.writeCount (st : FileState) (data : List Nat) :
    Option (Nat × FileState) :=
  let st := { st with is_started := true }
  match st.mode with
  | .OCTET => some (data.length, { st with written := st.written ++ data })
  | .NETASCII =>
      match netasciiConsume (st.write_buf ++ data) with
      | none => none
      | some r =>
          some (r.1.length,
            { st with written := st.written ++ r.1, write_buf := r.2 })

/-- Outcome of `std::io::Write::write_all` on a `file::File`: success, the
`ErrorKind::WriteZero` error `write_all` returns when a `write` call accepts
0 bytes (the state mutations of the calls made so far persist), or a panic
from inside `File::write`. -/
inductive WriteAllResult
  | ok (st : FileState)
  | writeZeroErr (st : FileState)
  | panicked
deriving DecidableEq, Repr

/-- The `write_all` loop (std library): while the buffer is nonempty, call
`write`; `Ok(0)` is the `WriteZero` error, `Ok(n)` advances the buffer by
`n` INPUT bytes (`buf = &buf[n..]`, a panic when `n` exceeds the remaining
buffer) and loops.  In NETASCII mode `n` counts decoded output bytes, so the
tail that was already decoded once is fed to `write` AGAIN.  `fuel` bounds
the iterations; it is spent one per call while each call with `n ≥ 1`
shortens the buffer, so starting `fuel` at the buffer length (see
`FileState.write_all`) the `fuel = 0` branch is unreachable. -/
def writeAllLoop : Nat → FileState → List Nat → WriteAllResult
  | fuel, st, data =>
      if data.isEmpty then .ok st
      else
        match st.writeCount data with
        | none => .panicked
        | some r =>
            if r.1 = 0 then .writeZeroErr r.2
            else if data.length < r.1 then .panicked
            else
              match fuel with
              | 0 => .panicked
              | fuel2 + 1 => writeAllLoop fuel2 r.2 (data.drop r.1)

/-- `temp_file.write_all(pkt.data())` as invoked by the WRQ handler
(src/server.rs line 427): the `write_all` loop with enough fuel for every
call to consume at least one input byte. -/
def FileState.write_all (st : FileState) (data : List Nat) : WriteAllResult :=
  writeAllLoop data.length st data

/-! ## Session state machines (src/server.rs) -/

/-- `RrqHandlingState::MAX_TRIAL_COUNT` and
`WrqHandlingState::MAX_TRIAL_COUNT` (src/server.rs lines 172 and 315). -/
def MAX_TRIAL_COUNT : Nat := 5

/-- `server::RrqHandlingState` (src/server.rs lines 165-169). -/
structure RrqHandlingState where
  block : Nat
  trial_count : Nat
  data : List Nat
deriving DecidableEq, Repr

/-- `RrqHandlingState::new` (src/server.rs lines 174-180). -/
def RrqHandlingState.new : RrqHandlingState := ⟨0, 0, []⟩

/-- `RrqHandlingState::increment_trial_count` (src/server.rs lines 194-201):
refuses (returns `None`) once the counter has reached `MAX_TRIAL_COUNT`,
otherwise increments it.  The Rust method mutates `self` and returns the new
count; the model returns the mutated state. -/
def RrqHandlingState.increment_trial_count (s : RrqHandlingState) :
    Option RrqHandlingState :=
  if MAX_TRIAL_COUNT ≤ s.trial_count then none
  else some { s with trial_count := s.trial_count + 1 }

/-- `RrqHandlingState::prepare_packet` (src/server.rs lines 203-206):
increments the trial counter and, when that succeeds, yields the DATA packet
for the current block. -/
def RrqHandlingState.prepare_packet (s : RrqHandlingState) :
    Option (RrqHandlingState × Data) :=
  (s.increment_trial_count).map (fun s2 => (s2, ⟨s2.block, s2.data⟩))

/-- `RrqHandlingState::next` (src/server.rs lines 208-212): advance to the
next block (u16 arithmetic, hence mod 2^16), reset the trial counter, store
the new payload. -/
def RrqHandlingState.next (s : RrqHandlingState) (data : List Nat) :
    RrqHandlingState :=
  ⟨(s.block + 1) % 65536, 0, data⟩

/-- `server::WrqHandlingState` (src/server.rs lines 309-312). -/
inductive WrqHandlingState
  | RequestAccepted (trial_count : Nat)
  | DataAccepted (block : Nat) (trial_count : Nat)
deriving DecidableEq, Repr

/-- `WrqHandlingState::new` (src/server.rs lines 317-319). -/
def WrqHandlingState.new : WrqHandlingState := .RequestAccepted 0

/-- `WrqHandlingState::block` (src/server.rs lines 321-326). -/
def WrqHandlingState.block : WrqHandlingState → Nat
  | .RequestAccepted _ => 0
  | .DataAccepted b _ => b

/-- `WrqHandlingState::trial_count` (src/server.rs lines 328-333). -/
def WrqHandlingState.trial_count : WrqHandlingState → Nat
  | .RequestAccepted t => t
  | .DataAccepted _ t => t

/-- `WrqHandlingState::increment_trial_count` (src/server.rs lines 335-346). -/
def WrqHandlingState.increment_trial_count (s : WrqHandlingState) :
    Option WrqHandlingState :=
  if MAX_TRIAL_COUNT ≤ s.trial_count then none
  else
    match s with
    | .RequestAccepted t => some (.RequestAccepted (t + 1))
    | .DataAccepted b t => some (.DataAccepted b (t + 1))

/-- `WrqHandlingState::prepare_packet` (src/server.rs lines 348-351):
increments the trial counter and, when that succeeds, yields the ACK for the
current block. -/
def WrqHandlingState.prepare_packet (s : WrqHandlingState) :
    Option (WrqHandlingState × ACK) :=
  (s.increment_trial_count).map (fun s2 => (s2, ⟨s2.block⟩))

/-- `WrqHandlingState::next` (src/server.rs lines 353-364): accepting a DATA
moves to `DataAccepted` with the next block (u16) and a reset trial counter. -/
def WrqHandlingState.next : WrqHandlingState → WrqHandlingState
  | .RequestAccepted _ => .DataAccepted 1 0
  | .DataAccepted b _ => .DataAccepted ((b + 1) % 65536) 0

/-! ## Session handlers (src/server.rs `create_rrq_handler` /
`create_wrq_handler`)

Peer addresses are modelled as `Nat`.  A `Sent` value records one
`sock.send_to` call.  One iteration of a handler's receive loop, applied to a
successfully received datagram `(src, bytes)`, is a step function returning
`none` when the Rust code panics, and otherwise the new session, the packets
sent during the iteration, and whether the loop `break`s (transfer done). -/

/-- One packet handed to `sock.send_to` by a handler. -/
inductive Sent
  | dataPkt (block : Nat) (payload : List Nat)
  | ackPkt (block : Nat)
  | errPkt (code : Nat)
deriving DecidableEq, Repr

/-- The in-flight state of an RRQ Sender session: the protocol state machine
plus the file adapter it reads from. -/
structure RrqSession where
  st : RrqHandlingState
  file : FileState
deriving DecidableEq, Repr

/-- One iteration of the RRQ handler's receive loop on a received datagram
(src/server.rs lines 264-302): a datagram from a source other than the
session's peer is logged and skipped (`continue`) with nothing sent; a
datagram from the peer is parsed as an ACK (a parse panic propagates, a parse
error is logged and skipped); an ACK for the current block either reads and
sends the next DATA (when `has_next`) or `break`s the loop (transfer done);
an ACK for any other block is logged and skipped. -/
def rrqRecvStep (client src : Nat) (bytes : List Nat) (sess : RrqSession) :
    Option (RrqSession × List Sent × Bool) :=
  if src ≠ client then some (sess, [], false)
  else
    match ACK.parse bytes with
    | .panicked => none
    | .failed => some (sess, [], false)
    | .ok pkt =>
        if pkt.block = sess.st.block then
          if sess.file.has_next then
            let r := sess.file.read
            let st2 := sess.st.next r.1
            match st2.prepare_packet with
            | some p => some (⟨p.1, r.2⟩, [Sent.dataPkt p.2.block p.2.data], false)
            | none => some (⟨st2, r.2⟩, [], false)
          else some (sess, [], true)
        else some (sess, [], false)

/-- The in-flight state of a WRQ Receiver session: the protocol state machine
plus the temp-file adapter it writes to. -/
structure WrqSession where
  st : WrqHandlingState
  file : FileState
deriving DecidableEq, Repr

/-- Outcome of one iteration of the WRQ handler's receive loop: a panic, an
abort (`write_all` returned `Err`, propagated by `?`: the handler returns
with an error, sending nothing further), or a normal step with the packets
sent and the `break` flag. -/
inductive WrqStepResult
  | panicked
  | aborted (sess : WrqSession)
  | stepped (sess : WrqSession) (sent : List Sent) (done : Bool)
deriving DecidableEq, Repr

/-- One iteration of the WRQ handler's receive loop on a received datagram
(src/server.rs lines 416-444): a datagram from a source other than the
session's peer is logged and skipped (`continue`) with nothing sent; a
datagram from the peer is parsed as a DATA packet (a parse error is logged
and skipped).  A well-formed DATA — with no check of its block number — has
its payload written to the temp file with `write_all` (whose netascii panic
propagates, and whose `WriteZero` error aborts the handler through `?`
before any ACK is sent); then the state is advanced with `next`, the ACK
from `prepare_packet` (whose `unwrap` panic propagates) is sent, and the
loop `break`s when the payload is shorter than 512 bytes. -/
def wrqRecvStep (client src : Nat) (bytes : List Nat) (sess : WrqSession) :
    WrqStepResult :=
  if src ≠ client then .stepped sess [] false
  else
    match serverDataParse bytes with
    | .panicked => .panicked
    | .failed => .stepped sess [] false
    | .ok pkt =>
        match sess.file.write_all pkt.data with
        | .panicked => .panicked
        | .writeZeroErr file2 => .aborted ⟨sess.st, file2⟩
        | .ok file2 =>
            let st2 := sess.st.next
            match st2.prepare_packet with
            | none => .panicked
            | some p =>
                .stepped ⟨p.1, file2⟩ [Sent.ackPkt p.2.block]
                  (decide (pkt.data.length < 512))

/-- The timeout branch of the RRQ handler's loop (src/server.rs lines
239-257), iterated for a peer that never responds: each timeout calls
`prepare_packet`; `Some` retransmits the DATA packet, `None` aborts the
session with a `bail!` (failed).  Returns how many retransmissions were sent
within `fuel` timeouts and whether the session ended failed. -/
def rrqTimeoutLoop : RrqHandlingState → Nat → Nat × Bool
  | _, 0 => (0, false)
  | s, fuel + 1 =>
      match s.prepare_packet with
      | some p => let r := rrqTimeoutLoop p.1 fuel; (r.1 + 1, r.2)
      | none => (0, true)

/-- The RRQ handler's behaviour for a peer that never responds
(src/server.rs lines 228-257): `state.next(first block)`, the initial
`prepare_packet().unwrap()` send, then only timeouts.  Returns the total
number of times the DATA packet was sent within `fuel` timeouts and whether
the session ended failed. -/
def rrqNoResponseRun (payload : List Nat) (fuel : Nat) : Nat × Bool :=
  let s0 := RrqHandlingState.new.next payload
  match s0.prepare_packet with
  | some p => let r := rrqTimeoutLoop p.1 fuel; (r.1 + 1, r.2)
  | none => (0, true)

/-- The sequence of DATA payloads an RRQ handler sends for a given file
(src/server.rs lines 225-302): the first block is read before the loop, and
after each matching ACK another block is read while `has_next` holds.
`fuel` bounds the number of reads. -/
def rrqBlocks : Nat → FileState → List (List Nat)
  | 0, _ => []
  | fuel + 1, st =>
      let r := st.read
      r.1 :: (if r.2.has_next then rrqBlocks fuel r.2 else [])

/-! ## Listener / dispatcher (src/server.rs `TftpServer::run`) -/

/-- What `TftpServer::run` does with one received datagram. -/
inductive ServerAction
  | spawnRrq (r : ReadPacket)
  | spawnWrq (w : WritePacket)
  | ignore
deriving DecidableEq, Repr

/-- One iteration of `TftpServer::run`'s receive loop on a received datagram
(src/server.rs lines 102-130): parse as `InitialPacket` (a panic propagates);
an RRQ or WRQ spawns the corresponding session; a parse failure is logged
(`warn!("Ignore unknown packet ...")`) and dropped.  The second component
lists the packets `run` itself sends back to the client: the loop contains no
`send_to` at all, so it is always empty. -/
def serverHandleDatagram (bytes : List Nat) : Option (ServerAction × List Sent) :=
  match InitialPacket.parse bytes with
  | .panicked => none
  | .failed => some (.ignore, [])
  | .ok (.RRQ r) => some (.spawnRrq r, [])
  | .ok (.WRQ w) => some (.spawnWrq w, [])

/-! ## WRQ publication (src/server.rs lines 447-455, src/error.rs) -/

/-- The `std::io::ErrorKind` values distinguished by
`TftpErrorNotifier::notify_error` (src/error.rs lines 71-103). -/
inductive IoErrKind
  | NotFound
  | PermissionDenied
  | Other
deriving DecidableEq, Repr

/-- The TFTP error code `notify_error` (src/error.rs lines 71-103) sends for
an io error of the given kind: NotFound to FileNotFound (1), PermissionDenied
to AccessViolation (2), everything else to Others (0). -/
def notifyErrorCode : IoErrKind → Nat
  | .NotFound => TftpError.FileNotFound.error_code
  | .PermissionDenied => TftpError.AccessViolation.error_code
  | .Other => TftpError.Others.error_code

/-- Outcome of publishing a completed WRQ temp file. -/
structure PublishResult where
  sent : List Sent
  tempDeleted : Bool
  published : Bool
  usedRename : Bool
deriving DecidableEq, Repr

/-- The publication epilogue of the WRQ handler (src/server.rs lines
447-455), with the result of the `fs::copy` call abstracted as a parameter
(`none` = success, `some k` = failure of kind `k`).  The code always uses
`fs::copy` followed by `fs::remove_file` — `fs::rename` is deliberately
avoided (comment on line 448) — and a copy failure notifies the peer via
`notify_error` and returns early with `?`, never reaching the
`remove_file`. -/
def wrqPublish (copyResult : Option IoErrKind) : PublishResult :=
  match copyResult with
  | none => ⟨[], true, true, false⟩
  | some k => ⟨[Sent.errPkt (notifyErrorCode k)], false, false, false⟩

/-- The 512-byte chunking of a byte list: all chunks are exactly 512 bytes
except a single final chunk of 0..511 bytes (a list shorter than 512 is the
single final chunk).  This is the block sequence the spec describes for an
OCTET read. -/
def octetChunks (l : List Nat) : List (List Nat) :=
  if l.length < 512 then [l]
  else l.take 512 :: octetChunks (l.drop 512)
termination_by l.length
decreasing_by simp; omega

/-- The protocol states an RRQ Sender session can reach: `RrqHandlingState::new`
followed by any interleaving of `next` (a new block accepted) and successful
`increment_trial_count` (a retransmission); `prepare_packet` is
`increment_trial_count` followed by building the packet. -/
inductive RrqReachable : RrqHandlingState → Prop
  | init : RrqReachable RrqHandlingState.new
  | step_next (s : RrqHandlingState) (d : List Nat) :
      RrqReachable s → RrqReachable (s.next d)
  | step_inc (s s2 : RrqHandlingState) :
      RrqReachable s → s.increment_trial_count = some s2 → RrqReachable s2

/-- The protocol states a WRQ Receiver session can reach: `WrqHandlingState::new`
followed by any interleaving of `next` and successful
`increment_trial_count`. -/
inductive WrqReachable : WrqHandlingState → Prop
  | init : WrqReachable WrqHandlingState.new
  | step_next (s : WrqHandlingState) :
      WrqReachable s → WrqReachable s.next
  | step_inc (s s2 : WrqHandlingState) :
      WrqReachable s → s.increment_trial_count = some s2 → WrqReachable s2

/-! ## Theorems -/

/-- C3: for every byte sequence `x`, decoding (`Data::parse_netascii`:
CR NUL to CR, CR LF to LF) the encoding (`Data::encode_netascii`: CR to
CR NUL, LF to CR LF) of `x` yields `x` unchanged — and in particular the
decoder never panics on an encoded input. -/
theorem netascii_roundtrip (x : List Nat) :
    parse_netascii (encode_netascii x) = some x := by
  induction x with
  | nil => rfl
  | cons a rest ih =>
      by_cases h13 : a = 13
      · subst h13
        simp [encode_netascii, parse_netascii, ih]
      · by_cases h10 : a = 10
        · subst h10
          simp [encode_netascii, parse_netascii, ih]
        · rw [encode_netascii.eq_def]
          simp only [if_neg h13, if_neg h10, List.singleton_append]
          rw [parse_netascii.eq_def]
          simp [h13, ih]

/-- C4: the decoders do NOT return a parse error on inputs shorter than their
fixed headers — the slice expressions `s[..2]` / `s[2..4]` /
`data[4..(len-1)]` panic first.  This theorem evaluates each decoder at such
a failing input: a 0- or 1-byte datagram crashes `InitialPacket::parse`, a
2-byte `[0x00,0x04]` crashes `ACK::parse`, a 3-byte DATA header crashes
`Data::parse`, a 3-byte ERROR header crashes `Error::parse`. -/
theorem decoders_panic_on_short_input :
    InitialPacket.parse [] = .panicked ∧
    InitialPacket.parse [0] = .panicked ∧
    ACK.parse [0, 4] = .panicked ∧
    Data.parse Mode.OCTET [0, 3, 0] = .panicked ∧
    ErrorPacket.parse [0, 5, 0] = .panicked := by
  refine ⟨rfl, rfl, by decide, by decide, by decide⟩

/-- C5 (counterexample): decoding the chunk `[CR, 0x61]` on the WRQ write
path does not produce an `IllegalOp` error value: `File::write` hits the
explicit `panic!` (modelled `none`), so the claim that a CR followed by a
byte other than NUL or LF "fails with an IllegalOp error (a returned error
value, not a crash)" is false. -/
theorem netascii_write_panic_counterexample :
    netasciiConsume [13, 97] = none ∧
    FileState.write (FileState.create Mode.NETASCII) [13, 97] = none := by
  decide

/-- C5 (amended): on the WRQ write path, a CR followed by any byte other
than NUL or LF makes the decode loop panic (crash), not return an error
value; a CR that is the last byte of the combined input is retained in
`write_buf` as carry state, and `File::write` feeds the carried byte in
front of the next chunk. -/
theorem netascii_write_cr_handling :
    (∀ b pre suf, b ≠ 0 → b ≠ 10 → 13 ∉ pre →
       netasciiConsume (pre ++ 13 :: b :: suf) = none) ∧
    (∀ pre, 13 ∉ pre → netasciiConsume (pre ++ [13]) = some (pre, [13])) ∧
    (∀ st data out carry, st.mode = Mode.NETASCII →
       netasciiConsume (st.write_buf ++ data) = some (out, carry) →
       FileState.write st data =
         some { st with is_started := true,
                        written := st.written ++ out, write_buf := carry }) := by
  refine ⟨?_, ?_, ?_⟩
  · intro b pre suf hb0 hb10 hpre
    induction pre with
    | nil => simp [netasciiConsume, hb0, hb10]
    | cons p ps ih =>
        have hp : p ≠ 13 := fun h => hpre (h ▸ List.mem_cons_self p ps)
        have hps : 13 ∉ ps := fun h => hpre (List.mem_cons_of_mem p h)
        rw [List.cons_append, netasciiConsume.eq_def]
        simp [hp, ih hps]
  · intro pre hpre
    induction pre with
    | nil => rfl
    | cons p ps ih =>
        have hp : p ≠ 13 := fun h => hpre (h ▸ List.mem_cons_self p ps)
        have hps : 13 ∉ ps := fun h => hpre (List.mem_cons_of_mem p h)
        rw [List.cons_append, netasciiConsume.eq_def]
        simp [hp, ih hps]
  · intro st data out carry hm hc
    simp [FileState.write, hm, hc]

/-- C5 (witness): the amended theorem applied at concrete inputs: the chunk
`[0x61, CR, 0x62, ...]` panics, the chunk `[0x61, CR]` carries the CR, and a
NETASCII `File::write` of `[0x61]` goes through `netasciiConsume`. -/
theorem netascii_write_cr_handling_witness :
    netasciiConsume ([97] ++ 13 :: 98 :: []) = none ∧
    netasciiConsume ([97] ++ [13]) = some ([97], [13]) ∧
    FileState.write (FileState.create Mode.NETASCII) [97] =
      some { FileState.create Mode.NETASCII with
             is_started := true, written := [] ++ [97], write_buf := [] } :=
  ⟨netascii_write_cr_handling.1 98 [97] [] (by decide) (by decide) (by decide),
   netascii_write_cr_handling.2.1 [97] (by decide),
   netascii_write_cr_handling.2.2 (FileState.create Mode.NETASCII) [97] [97] []
     rfl (by decide)⟩

/-- C1 (counterexample): a datagram arriving from source address 1 on a
session whose peer is 0 elicits NO packet at all — the handlers log
"received packet from unknown client ... ignore it." and `continue` — so the
claim that the session "sends an Error packet with code 5 (UnknownTid) to
that foreign source" is false, in both the RRQ and the WRQ handler. -/
theorem foreign_tid_counterexample :
    rrqRecvStep 0 1 [0, 4, 0, 1]
        ⟨⟨1, 1, [97]⟩, FileState.open [97] Mode.OCTET⟩ =
      some (⟨⟨1, 1, [97]⟩, FileState.open [97] Mode.OCTET⟩, [], false) ∧
    wrqRecvStep 0 1 [0, 3, 0, 1, 97]
        ⟨WrqHandlingState.DataAccepted 1 1, FileState.create Mode.OCTET⟩ =
      .stepped ⟨WrqHandlingState.DataAccepted 1 1, FileState.create Mode.OCTET⟩
        [] false := by
  decide

/-- C1 (amended): when a datagram arrives on the session's UDP endpoint from
a source address different from the session's peer address, both the RRQ
Sender and the WRQ Receiver log it and ignore it: nothing is sent (in
particular no Error(UnknownTid)), the session state is unchanged, and the
transfer continues unaffected. -/
theorem foreign_tid_ignored (client src : Nat) (h : src ≠ client) :
    (∀ bytes sess, rrqRecvStep client src bytes sess = some (sess, [], false)) ∧
    (∀ bytes sess, wrqRecvStep client src bytes sess = .stepped sess [] false) := by
  refine ⟨fun bytes sess => ?_, fun bytes sess => ?_⟩ <;>
    simp [rrqRecvStep, wrqRecvStep, h]

/-- C1 (witness): the amended theorem applied to peer 0 and foreign source 1
with a concrete datagram and session. -/
theorem foreign_tid_ignored_witness :
    rrqRecvStep 0 1 [0, 4, 0, 1]
        ⟨⟨1, 1, [97]⟩, FileState.open [97] Mode.OCTET⟩ =
      some (⟨⟨1, 1, [97]⟩, FileState.open [97] Mode.OCTET⟩, [], false) :=
  (foreign_tid_ignored 0 1 (by decide)).1 [0, 4, 0, 1]
    ⟨⟨1, 1, [97]⟩, FileState.open [97] Mode.OCTET⟩

/-- Helper: the state effect of a single `File::write` call agrees between
the count-returning model (`writeCount`) and the count-free model
(`FileState.write`). -/
theorem writeCount_state_eq_write (st : FileState) (data : List Nat) :
    (st.writeCount data).map Prod.snd = st.write data := by
  cases hm : st.mode
  · cases hc : netasciiConsume (st.write_buf ++ data) <;>
      simp [FileState.write, FileState.writeCount, hm, hc]
  · simp [FileState.write, FileState.writeCount, hm]

/-- C2 (counterexample): a WRQ Receiver in state `DataAccepted 1` (last ACK
sent for block 1, expecting DATA block 2) that receives a well-formed OCTET
DATA with block number 5 — not the expected block — nevertheless writes the
payload `[0x61]` to the file and sends a NEW ACK with block 2; it neither
retransmits the previous ACK(1) nor leaves the file unchanged, so the claim
is false.  (The short payload even ends the transfer.) -/
theorem wrq_block_ignored_counterexample :
    wrqRecvStep 0 0 [0, 3, 0, 5, 97]
        ⟨WrqHandlingState.DataAccepted 1 1, FileState.create Mode.OCTET⟩ =
      .stepped ⟨WrqHandlingState.DataAccepted 2 1,
             { FileState.create Mode.OCTET with
               is_started := true, written := [97] }⟩
        [Sent.ackPkt 2] true := by
  decide

/-- C2 (amended): the WRQ receive loop never compares the DATA block number
with the expected block.  (1) Whenever `write_all` on the payload succeeds,
the well-formed DATA — whatever its block number — is answered with a new
ACK for `previous block + 1` (u16) and the file takes `write_all`'s result;
the loop ends when the payload is shorter than 512 bytes.  (2) In OCTET mode
`write_all` always succeeds and appends exactly the payload, so there every
well-formed DATA is written and freshly ACKed.  (3) `write_all` can instead
return a `WriteZero` error — e.g. a NETASCII payload that decodes to no
output, such as a lone trailing CR — and then the handler aborts through `?`
with NO ACK sent and the state machine unchanged.  (4) Because `File::write`
returns the count of decoded output bytes, `write_all` re-feeds and
re-decodes the tail in NETASCII mode: the 3-byte payload `[0x61, CR, NUL]`
ends up on disk as `[0x61, CR, NUL]`, not `[0x61, CR]`. -/
theorem wrq_data_written_regardless :
    (∀ (client : Nat) (bytes : List Nat) (pkt : Data) (sess : WrqSession)
       (file2 : FileState),
      serverDataParse bytes = .ok pkt →
      sess.file.write_all pkt.data = .ok file2 →
      wrqRecvStep client client bytes sess =
        .stepped ⟨WrqHandlingState.DataAccepted ((sess.st.block + 1) % 65536) 1,
            file2⟩
          [Sent.ackPkt ((sess.st.block + 1) % 65536)]
          (decide (pkt.data.length < 512))) ∧
    (∀ (st : FileState) (data : List Nat), st.mode = Mode.OCTET → data ≠ [] →
      st.write_all data =
        .ok { st with is_started := true, written := st.written ++ data }) ∧
    (∀ (client : Nat) (bytes : List Nat) (pkt : Data) (sess : WrqSession)
       (file2 : FileState),
      serverDataParse bytes = .ok pkt →
      sess.file.write_all pkt.data = .writeZeroErr file2 →
      wrqRecvStep client client bytes sess = .aborted ⟨sess.st, file2⟩) ∧
    (FileState.create Mode.NETASCII).write_all [97, 13, 0] =
      .ok { FileState.create Mode.NETASCII with
            is_started := true, written := [97, 13, 0] } := by
  refine ⟨?_, ?_, ?_, by decide⟩
  · intro client bytes pkt sess file2 hp hw
    obtain ⟨st, file⟩ := sess
    cases st <;>
      simp [wrqRecvStep, hp, hw, WrqHandlingState.next, WrqHandlingState.block,
        WrqHandlingState.prepare_packet, WrqHandlingState.increment_trial_count,
        WrqHandlingState.trial_count, MAX_TRIAL_COUNT] at hw ⊢
  · intro st data hm hne
    cases data with
    | nil => exact absurd rfl hne
    | cons d ds =>
        have hdrop : (d :: ds).drop (ds.length + 1) = [] :=
          List.drop_eq_nil_of_le (by simp)
        rw [FileState.write_all, List.length_cons, writeAllLoop]
        simp [FileState.writeCount, hm, hdrop, writeAllLoop]
  · intro client bytes pkt sess file2 hp hw
    simp [wrqRecvStep, hp, hw]

/-- C2 (witness): the amended theorem applied at concrete inputs: the OCTET
counterexample configuration (expected block 2, received block 5, payload
written and ACK(2) sent), and a NETASCII session receiving a lone-CR payload
(WriteZero abort, no ACK). -/
theorem wrq_data_written_regardless_witness :
    wrqRecvStep 0 0 [0, 3, 0, 5, 97]
        ⟨WrqHandlingState.DataAccepted 1 1, FileState.create Mode.OCTET⟩ =
      .stepped ⟨WrqHandlingState.DataAccepted ((1 + 1) % 65536) 1,
             { FileState.create Mode.OCTET with
               is_started := true, written := [] ++ [97] }⟩
        [Sent.ackPkt ((1 + 1) % 65536)] (decide (([97] : List Nat).length < 512)) ∧
    (FileState.create Mode.OCTET).write_all [97] =
      .ok { FileState.create Mode.OCTET with
            is_started := true, written := [] ++ [97] } ∧
    wrqRecvStep 0 0 [0, 3, 0, 1, 13]
        ⟨WrqHandlingState.DataAccepted 1 1, FileState.create Mode.NETASCII⟩ =
      .aborted ⟨WrqHandlingState.DataAccepted 1 1,
          { FileState.create Mode.NETASCII with
            is_started := true, write_buf := [13] }⟩ :=
  ⟨wrq_data_written_regardless.1 0 [0, 3, 0, 5, 97] ⟨5, [97]⟩
      ⟨WrqHandlingState.DataAccepted 1 1, FileState.create Mode.OCTET⟩
      { FileState.create Mode.OCTET with is_started := true, written := [] ++ [97] }
      (by decide) (by decide),
   wrq_data_written_regardless.2.1 (FileState.create Mode.OCTET) [97] rfl
      (by decide),
   wrq_data_written_regardless.2.2.1 0 [0, 3, 0, 1, 13] ⟨1, [13]⟩
      ⟨WrqHandlingState.DataAccepted 1 1, FileState.create Mode.NETASCII⟩
      { FileState.create Mode.NETASCII with is_started := true, write_buf := [13] }
      (by decide) (by decide)⟩

/-- Helper for C6: iterating the timeout branch from a state with
`trial_count = t ≤ 5` sends at most `5 - t` further packets, and as soon as
strictly more than `5 - t` timeouts elapse the loop has sent exactly `5 - t`
packets and aborted (`bail!`). -/
theorem rrqTimeoutLoop_characterised :
    ∀ (fuel : Nat) (s : RrqHandlingState), s.trial_count ≤ 5 →
      (rrqTimeoutLoop s fuel).1 ≤ 5 - s.trial_count ∧
      (5 - s.trial_count < fuel →
        rrqTimeoutLoop s fuel = (5 - s.trial_count, true)) := by
  intro fuel
  induction fuel with
  | zero => intro s _; exact ⟨Nat.zero_le _, by omega⟩
  | succ n ih =>
      intro s hs
      by_cases h5 : 5 ≤ s.trial_count
      · have ht : s.trial_count = 5 := le_antisymm hs h5
        simp [rrqTimeoutLoop, RrqHandlingState.prepare_packet,
          RrqHandlingState.increment_trial_count, MAX_TRIAL_COUNT, h5, ht]
      · have hstep : s.increment_trial_count =
            some { s with trial_count := s.trial_count + 1 } := by
          simp [RrqHandlingState.increment_trial_count, MAX_TRIAL_COUNT, h5]
        have hrec := ih { s with trial_count := s.trial_count + 1 } (by simp; omega)
        simp only [rrqTimeoutLoop, RrqHandlingState.prepare_packet, hstep,
          Option.map_some'] at hrec ⊢
        constructor
        · omega
        · intro hf
          have : 5 - (s.trial_count + 1) < n := by omega
          rw [hrec.2 this]
          simp
          omega

/-- C6: an RRQ Sender whose peer never responds sends the same DATA packet
at most `MAX_TRIAL_COUNT = 5` times in total (the initial send through
`prepare_packet` plus up to 4 timeout retransmissions); once 5 or more
timeouts have elapsed it has sent exactly 5 copies and terminated failed
(`bail!("Failed to receive ack ...: timeout")`) without further sends. -/
theorem rrq_at_most_five_sends (payload : List Nat) (fuel : Nat) :
    (rrqNoResponseRun payload fuel).1 ≤ 5 ∧
    (5 ≤ fuel → rrqNoResponseRun payload fuel = (5, true)) := by
  have h1 : (RrqHandlingState.new.next payload).prepare_packet =
      some (⟨1, 1, payload⟩, ⟨1, payload⟩) := by
    simp [RrqHandlingState.new, RrqHandlingState.next,
      RrqHandlingState.prepare_packet, RrqHandlingState.increment_trial_count,
      MAX_TRIAL_COUNT]
  have hloop := rrqTimeoutLoop_characterised fuel ⟨1, 1, payload⟩ (by simp)
  simp only [rrqNoResponseRun, h1] at *
  constructor
  · have := hloop.1
    simp at this ⊢
    omega
  · intro hf
    have : (5 : Nat) - 1 < fuel := by omega
    rw [hloop.2 this]

/-- C6 (witness): with 7 timeouts and payload `[0x61]` the packet is sent
exactly 5 times and the session fails. -/
theorem rrq_at_most_five_sends_witness :
    (rrqNoResponseRun [97] 7).1 ≤ 5 ∧ rrqNoResponseRun [97] 7 = (5, true) :=
  ⟨(rrq_at_most_five_sends [97] 7).1, (rrq_at_most_five_sends [97] 7).2 (by decide)⟩

/-- Helper for C7: `octetChunks` never returns an empty list of chunks. -/
theorem octetChunks_ne_nil (l : List Nat) : octetChunks l ≠ [] := by
  rw [octetChunks.eq_def]
  split <;> simp

/-- Helper for C7: the number of 512-byte chunks is `length / 512 + 1`. -/
theorem octetChunks_length (l : List Nat) :
    (octetChunks l).length = l.length / 512 + 1 := by
  induction l using octetChunks.induct with
  | case1 l h =>
      rw [octetChunks.eq_def, if_pos h]
      simp [Nat.div_eq_of_lt h]
  | case2 l h ih =>
      rw [octetChunks.eq_def, if_neg h]
      simp only [List.length_cons, ih, List.length_drop]
      omega

/-- Helper: `getLast?` skips past the head of a list with a nonempty tail. -/
theorem getLast?_cons_tail {l : List (List Nat)}
    (a2 : List Nat) (h : l ≠ []) : (a2 :: l).getLast? = l.getLast? := by
  cases l with
  | nil => simp at h
  | cons b bs => simp [List.getLast?]

/-- Helper for C7: every chunk except the last has exactly 512 bytes, the
last has fewer than 512, and the chunks concatenate back to the input. -/
theorem octetChunks_sizes (l : List Nat) :
    (∀ b ∈ (octetChunks l).dropLast, b.length = 512) ∧
    (∀ b, (octetChunks l).getLast? = some b → b.length < 512) ∧
    (octetChunks l).flatten = l := by
  induction l using octetChunks.induct with
  | case1 l h =>
      rw [octetChunks.eq_def, if_pos h]
      refine ⟨by simp, ?_, by simp⟩
      intro b hb
      simp at hb
      subst hb
      exact h
  | case2 l h ih =>
      rw [octetChunks.eq_def, if_neg h]
      have hne := octetChunks_ne_nil (l.drop 512)
      refine ⟨?_, ?_, ?_⟩
      · intro b hb
        rw [List.dropLast_cons_of_ne_nil hne] at hb
        rcases List.mem_cons.mp hb with h1 | h1
        · subst h1; simp; omega
        · exact ih.1 b h1
      · intro b hb
        rw [getLast?_cons_tail (l.take 512) hne] at hb
        exact ih.2.1 b hb
      · rw [List.flatten_cons, ih.2.2]
        exact List.take_append_drop 512 l

/-- Helper for C7: in OCTET mode the RRQ read loop produces exactly the
512-byte chunking of the file content, for any sufficient fuel and whatever
the `is_started` flag is. -/
theorem rrqBlocks_octet_eq :
    ∀ (fuel : Nat) (content : List Nat) (started : Bool),
      content.length / 512 + 1 ≤ fuel →
      rrqBlocks fuel ⟨content, [], [], [], Mode.OCTET, started, false⟩ =
        octetChunks content := by
  intro fuel
  induction fuel with
  | zero => intro content started h; omega
  | succ n ih =>
      intro content started h
      by_cases hlen : content.length < 512
      · have hk : min 512 content.length = content.length := by omega
        rw [rrqBlocks, octetChunks.eq_def, if_pos hlen]
        simp [FileState.read, FileState.read_data_from_inner, FileState.has_next,
          hk, hlen]
      · have hk : min 512 content.length = 512 := by omega
        rw [rrqBlocks, octetChunks.eq_def, if_neg hlen]
        have hrec := ih (content.drop 512) true (by simp; omega)
        have hbuf : (content.take 512).drop 512 = [] :=
          List.drop_eq_nil_of_le (by simp)
        simp [FileState.read, FileState.read_data_from_inner, FileState.has_next,
          hk, hlen, hrec, hbuf]

set_option maxRecDepth 40000 in
/-- C7 (counterexample): for a NETASCII RRQ transfer of a 256-byte file of
CR bytes, the netascii expansion doubles the stream to 512 bytes and TWO
DATA packets are sent (one of 512 bytes and one empty), not
`floor(256/512) + 1 = 1`, so the packet-count claim is false for file size
N under NETASCII. -/
theorem rrq_block_count_counterexample :
    (rrqBlocks 5 (FileState.open (List.replicate 256 13) Mode.NETASCII)).length
        = 2 ∧
    (List.replicate 256 13 : List Nat).length / 512 + 1 = 1 := by
  constructor
  · rfl
  · simp

/-- C7 (amended): for every RRQ transfer in OCTET mode of a file of size N
bytes, the number of DATA packets sent equals `floor(N/512) + 1`; every
block is exactly 512 bytes except a single final block of 0..511 bytes,
exactly one such final short/empty block is produced (a 0-byte file yields
exactly one empty DATA), and the blocks concatenate back to the file
content.  (Under NETASCII the same sizing holds for the expanded stream, but
the count is driven by the expanded length, not N.) -/
theorem rrq_block_count_octet (content : List Nat) (fuel : Nat)
    (hf : content.length / 512 + 1 ≤ fuel) :
    (rrqBlocks fuel (FileState.open content Mode.OCTET)).length
        = content.length / 512 + 1 ∧
    (∀ b ∈ (rrqBlocks fuel (FileState.open content Mode.OCTET)).dropLast,
        b.length = 512) ∧
    (∀ b, (rrqBlocks fuel (FileState.open content Mode.OCTET)).getLast?
        = some b → b.length < 512) ∧
    (rrqBlocks fuel (FileState.open content Mode.OCTET)).flatten = content := by
  have he : rrqBlocks fuel (FileState.open content Mode.OCTET)
      = octetChunks content := rrqBlocks_octet_eq fuel content false hf
  rw [he]
  exact ⟨octetChunks_length content, (octetChunks_sizes content).1,
    (octetChunks_sizes content).2.1, (octetChunks_sizes content).2.2⟩

/-- C7 (witness): the amended theorem at a 513-byte file: two DATA blocks of
512 and 1 bytes. -/
theorem rrq_block_count_octet_witness :
    (rrqBlocks 2 (FileState.open (List.replicate 513 97) Mode.OCTET)).length
        = (List.replicate 513 97 : List Nat).length / 512 + 1 :=
  (rrq_block_count_octet (List.replicate 513 97) 2 (by norm_num)).1

/-- C8 (counterexample): when the publish `fs::copy` fails with an io error
that is neither NotFound nor PermissionDenied (e.g. a full disk), the server
sends Error(0 Undefined) — not Error(2 AccessViolation) or Error(3
DiskFull) — and does NOT delete the temp file (the `?` returns before
`fs::remove_file`); moreover even a successful publish never uses rename,
so the claim is false. -/
theorem wrq_publish_counterexample :
    wrqPublish (some IoErrKind.Other) =
      ⟨[Sent.errPkt 0], false, false, false⟩ ∧
    (wrqPublish none).usedRename = false := by
  decide

/-- C8 (amended): a completed WRQ is always published by `fs::copy` followed
by `fs::remove_file` of the temp file — `fs::rename` is never used, on any
filesystem; when the copy fails, the server sends a single Error packet
whose code is 1 (FileNotFound), 2 (AccessViolation) or 0 (Undefined)
according to the io error kind — never 3 (DiskFull) — and aborts without
deleting the temp file. -/
theorem wrq_publish_behaviour :
    (∀ k, wrqPublish (some k) =
       ⟨[Sent.errPkt (notifyErrorCode k)], false, false, false⟩) ∧
    wrqPublish none = ⟨[], true, true, false⟩ ∧
    (∀ r, (wrqPublish r).usedRename = false) ∧
    (∀ r c, Sent.errPkt c ∈ (wrqPublish r).sent → c = 0 ∨ c = 1 ∨ c = 2) := by
  refine ⟨fun k => rfl, rfl, fun r => ?_, fun r c hc => ?_⟩
  · cases r <;> rfl
  · cases r with
    | none => simp [wrqPublish] at hc
    | some k =>
        cases k <;>
          simp [wrqPublish, notifyErrorCode, TftpError.error_code] at hc <;>
          omega

/-- C8 (witness): the amended theorem applied to a copy failure with
PermissionDenied: Error(2) is sent, the temp file survives, nothing is
published, rename is not used. -/
theorem wrq_publish_behaviour_witness :
    wrqPublish (some IoErrKind.PermissionDenied) =
      ⟨[Sent.errPkt 2], false, false, false⟩ ∧
    ((2 : Nat) = 0 ∨ (2 : Nat) = 1 ∨ (2 : Nat) = 2) :=
  ⟨wrq_publish_behaviour.1 IoErrKind.PermissionDenied,
   wrq_publish_behaviour.2.2.2 (some IoErrKind.PermissionDenied) 2 (by decide)⟩

/-- C10: in both session state machines the retry counter never exceeds
`MAX_TRIAL_COUNT = 5` in any reachable state; `increment_trial_count`
refuses to increment (returns `None`) once the counter has reached 5; and
every state-advancing `next` transition resets the counter to 0. -/
theorem trial_count_invariant :
    (∀ s, RrqReachable s → s.trial_count ≤ MAX_TRIAL_COUNT) ∧
    (∀ s, WrqReachable s → s.trial_count ≤ MAX_TRIAL_COUNT) ∧
    (∀ s : RrqHandlingState, MAX_TRIAL_COUNT ≤ s.trial_count →
        s.increment_trial_count = none) ∧
    (∀ s : WrqHandlingState, MAX_TRIAL_COUNT ≤ s.trial_count →
        s.increment_trial_count = none) ∧
    (∀ (s : RrqHandlingState) (d : List Nat), (s.next d).trial_count = 0) ∧
    (∀ s : WrqHandlingState, s.next.trial_count = 0) := by
  refine ⟨?_, ?_, ?_, ?_, ?_, ?_⟩
  · intro s h
    induction h with
    | init => simp [RrqHandlingState.new, MAX_TRIAL_COUNT]
    | step_next s d _ _ => simp [RrqHandlingState.next, MAX_TRIAL_COUNT]
    | step_inc s s2 _ hinc _ =>
        unfold RrqHandlingState.increment_trial_count at hinc
        split at hinc
        · simp at hinc
        · rename_i hlt
          obtain rfl := Option.some_injective _ hinc
          simp [MAX_TRIAL_COUNT] at hlt ⊢
          omega
  · intro s h
    induction h with
    | init => simp [WrqHandlingState.new, WrqHandlingState.trial_count,
        MAX_TRIAL_COUNT]
    | step_next s _ _ =>
        cases s <;> simp [WrqHandlingState.next, WrqHandlingState.trial_count,
          MAX_TRIAL_COUNT]
    | step_inc s s2 _ hinc _ =>
        unfold WrqHandlingState.increment_trial_count at hinc
        split at hinc
        · simp at hinc
        · rename_i hlt
          cases s with
          | RequestAccepted t =>
              obtain rfl := Option.some_injective _ hinc
              simp [WrqHandlingState.trial_count, MAX_TRIAL_COUNT] at hlt ⊢
              omega
          | DataAccepted b t =>
              obtain rfl := Option.some_injective _ hinc
              simp [WrqHandlingState.trial_count, MAX_TRIAL_COUNT] at hlt ⊢
              omega
  · intro s h
    simp [RrqHandlingState.increment_trial_count, h]
  · intro s h
    simp [WrqHandlingState.increment_trial_count, h]
  · intro s d
    simp [RrqHandlingState.next]
  · intro s
    cases s <;> simp [WrqHandlingState.next, WrqHandlingState.trial_count]

/-- C10 (witness): the invariant applied to concrete reachable states and a
concrete saturated counter in each machine. -/
theorem trial_count_invariant_witness :
    RrqHandlingState.new.trial_count ≤ MAX_TRIAL_COUNT ∧
    WrqHandlingState.new.trial_count ≤ MAX_TRIAL_COUNT ∧
    (RrqHandlingState.mk 1 5 [97]).increment_trial_count = none ∧
    (WrqHandlingState.DataAccepted 3 5).increment_trial_count = none ∧
    (RrqHandlingState.new.next [97]).trial_count = 0 ∧
    WrqHandlingState.new.next.trial_count = 0 :=
  ⟨trial_count_invariant.1 _ RrqReachable.init,
   trial_count_invariant.2.1 _ WrqReachable.init,
   trial_count_invariant.2.2.1 _ (by decide),
   trial_count_invariant.2.2.2.1 _ (by decide),
   trial_count_invariant.2.2.2.2.1 _ [97],
   trial_count_invariant.2.2.2.2.2 _⟩

/-- Helper for C9: unfolding lemma for `splitOnByte` on a cons cell. -/
theorem splitOnByte_cons (b x : Nat) (xs : List Nat) :
    splitOnByte b (x :: xs) =
      if x = b then [] :: splitOnByte b xs
      else
        match splitOnByte b xs with
        | [] => [[x]]
        | y :: ys => (x :: y) :: ys := rfl

/-- Helper for C9: `splitOnByte` always produces at least one part. -/
theorem splitOnByte_ne_nil (b : Nat) (l : List Nat) : splitOnByte b l ≠ [] := by
  cases l with
  | nil => simp [splitOnByte]
  | cons x xs =>
      rw [splitOnByte_cons]
      split
      · simp
      · split <;> simp

/-- Helper for C9: no part produced by `splitOnByte b` contains `b`. -/
theorem splitOnByte_not_mem (b : Nat) :
    ∀ (l : List Nat) (p : List Nat), p ∈ splitOnByte b l → b ∉ p := by
  intro l
  induction l with
  | nil =>
      intro p hp
      simp [splitOnByte] at hp
      subst hp
      simp
  | cons x xs ih =>
      intro p hp
      rw [splitOnByte_cons] at hp
      by_cases hx : x = b
      · rw [if_pos hx] at hp
        rcases List.mem_cons.mp hp with rfl | h1
        · simp
        · exact ih p h1
      · rw [if_neg hx] at hp
        rcases hr : splitOnByte b xs with _ | ⟨y, ys⟩
        · exact absurd hr (splitOnByte_ne_nil b xs)
        · rw [hr] at hp
          rcases List.mem_cons.mp hp with rfl | h1
          · intro hmem
            rcases List.mem_cons.mp hmem with h2 | h2
            · exact hx h2.symm
            · exact ih y (by rw [hr]; exact List.mem_cons_self y ys) h2
          · exact ih p (by rw [hr]; exact List.mem_cons_of_mem y h1)

/-- Helper for C9: whenever `Path::file_name` resolves, the result is a leaf
name: it contains no directory separator, is nonempty, and is not "..". -/
theorem pathFileName_leaf (bs fn : List Nat) (h : pathFileName bs = some fn) :
    47 ∉ fn ∧ fn ≠ [] ∧ fn ≠ [46, 46] := by
  unfold pathFileName at h
  split at h
  · simp at h
  · rename_i last hlast
    split at h
    · simp at h
    · rename_i hne
      obtain rfl := Option.some_injective _ h
      have hmem := List.mem_of_mem_getLast? hlast
      have h2 := List.mem_filter.mp hmem
      refine ⟨splitOnByte_not_mem 47 bs last h2.1, ?_, hne⟩
      have h3 := h2.2
      simp at h3
      exact h3.1

/-- Helper for C9: a parsed WRQ's filename always comes out of
`Path::file_name`. -/
theorem writePacket_parse_ok_filename (s : List Nat) (w : WritePacket)
    (h : WritePacket.parse s = .ok w) :
    ∃ bs, pathFileName bs = some w.filename := by
  cases s with
  | nil => simp [WritePacket.parse] at h
  | cons a t =>
      cases t with
      | nil => simp [WritePacket.parse] at h
      | cons b body =>
          simp only [WritePacket.parse] at h
          split at h
          · simp at h
          · split at h
            · simp at h
            · split at h
              · simp at h
              · split at h
                · simp at h
                · cases w
                  simp only [ParseResult.ok.injEq, WritePacket.mk.injEq] at h
                  obtain ⟨h1, h2⟩ := h
                  subst h1
                  exact ⟨_, by assumption⟩

/-- Helper for C9: a parsed RRQ's filename always comes out of
`Path::file_name`. -/
theorem readPacket_parse_ok_filename (s : List Nat) (r : ReadPacket)
    (h : ReadPacket.parse s = .ok r) :
    ∃ bs, pathFileName bs = some r.filename := by
  cases s with
  | nil => simp [ReadPacket.parse] at h
  | cons a t =>
      cases t with
      | nil => simp [ReadPacket.parse] at h
      | cons b body =>
          simp only [ReadPacket.parse] at h
          split at h
          · simp at h
          · split at h
            · simp at h
            · split at h
              · simp at h
              · split at h
                · simp at h
                · cases r
                  simp only [ParseResult.ok.injEq, ReadPacket.mk.injEq] at h
                  obtain ⟨h1, h2⟩ := h
                  subst h1
                  exact ⟨_, by assumption⟩

/-- C9 (counterexample): a WRQ whose filename field is empty fails to parse,
and the listener's receive loop merely logs and drops it — `TftpServer::run`
sends nothing at all back to the client, so the claim that such a request
"is rejected with error code 2 (AccessViolation) sent to the client" is
false. -/
theorem empty_filename_counterexample :
    WritePacket.parse ([0, 2] ++ [0] ++ [111, 99, 116, 101, 116] ++ [0])
      = .failed ∧
    serverHandleDatagram ([0, 2] ++ [0] ++ [111, 99, 116, 101, 116] ++ [0])
      = some (.ignore, []) := by
  decide

/-- C9 (amended): every filename accepted by the RRQ/WRQ parsers is reduced
by `Path::file_name` to its terminal path component — it contains no `/`
(0x2F), is nonempty, and is not ".." — and a request whose filename is empty
or unresolvable fails to parse, whereupon the listener silently drops the
datagram: no packet (in particular no Error(2)) is sent to the client. -/
theorem filename_sanitized (bytes : List Nat) :
    (∀ w, WritePacket.parse bytes = .ok w →
       47 ∉ w.filename ∧ w.filename ≠ [] ∧ w.filename ≠ [46, 46]) ∧
    (∀ r, ReadPacket.parse bytes = .ok r →
       47 ∉ r.filename ∧ r.filename ≠ [] ∧ r.filename ≠ [46, 46]) ∧
    (InitialPacket.parse bytes = .failed →
       serverHandleDatagram bytes = some (.ignore, [])) := by
  refine ⟨fun w hw => ?_, fun r hr => ?_, fun hf => ?_⟩
  · obtain ⟨bs, hbs⟩ := writePacket_parse_ok_filename bytes w hw
    exact pathFileName_leaf bs _ hbs
  · obtain ⟨bs, hbs⟩ := readPacket_parse_ok_filename bytes r hr
    exact pathFileName_leaf bs _ hbs
  · simp [serverHandleDatagram, hf]

/-- C9 (witness): parsing the WRQ for "/foo/bar.txt" yields the leaf
"bar.txt", and the unparseable empty-filename WRQ is silently ignored. -/
theorem filename_sanitized_witness :
    (47 ∉ ([98, 97, 114, 46, 116, 120, 116] : List Nat) ∧
     ([98, 97, 114, 46, 116, 120, 116] : List Nat) ≠ [] ∧
     ([98, 97, 114, 46, 116, 120, 116] : List Nat) ≠ [46, 46]) ∧
    serverHandleDatagram ([0, 2] ++ [0] ++ [111, 99, 116, 101, 116] ++ [0]) =
      some (.ignore, []) :=
  ⟨(filename_sanitized ([0, 2] ++ [47, 102, 111, 111, 47, 98, 97, 114, 46, 116,
      120, 116] ++ [0] ++ [110, 101, 116, 97, 115, 99, 105, 105] ++ [0])).1
      ⟨[98, 97, 114, 46, 116, 120, 116], Mode.NETASCII⟩ (by decide),
   (filename_sanitized ([0, 2] ++ [0] ++ [111, 99, 116, 101, 116] ++ [0])).2.2
      (by decide)⟩

end Tftpff
